import Mathlib

/-!
Verification of the K8s-controller-sample repository: a shallow embedding of
the logger package (pkg/logger), the controller command (cmd/controller.go,
both the informer variant and the raw-watch variant) and the HTTP server
(cmd/server.go), with theorems settling the frozen behavioural claims.
-/

/-- Log levels of the zerolog-backed logger (Debug/Info/Warn/Error/Fatal). -/
inductive Level where
  | debug
  | info
  | warn
  | error
  | fatal
deriving DecidableEq, Repr

/-- A scalar value attached to a structured-log field (zerolog Str/Interface). -/
inductive LogValue where
  | str (s : String)
  | num (n : Int)
  | boolV (b : Bool)
deriving DecidableEq, Repr

/-- The context of a wrapped zerolog logger: the ordered list of fields the
logger appends to every record.  `logger.With().Str(k,v).Logger()` appends a
key/value pair at the end; derivation copies, it never mutates the receiver. -/
structure CtxLogger where
  fields : List (String × LogValue)
deriving DecidableEq, Repr

/-- Embeds `Logger.WithNamespace` (pkg/logger): returns a new logger whose
zerolog context is extended with a `namespace` string field. -/
def CtxLogger.withNamespaceField (l : CtxLogger) (ns : String) : CtxLogger :=
  CtxLogger.mk (l.fields ++ [("namespace", LogValue.str ns)])

/-- Embeds `Logger.WithDeployment` (pkg/logger): returns a new logger whose
zerolog context is extended with a `deployment` string field. -/
def CtxLogger.withDeploymentField (l : CtxLogger) (name : String) : CtxLogger :=
  CtxLogger.mk (l.fields ++ [("deployment", LogValue.str name)])

/-- One emitted log record: level, message, and the ordered field list as it
appears in the serialized record (context fields first, then the call-site
fields in the order the Go map range produced them). -/
structure LogRecord where
  level : Level
  message : String
  fields : List (String × LogValue)
deriving DecidableEq, Repr

/-- Embeds `Logger.Info` (pkg/logger): starts a zerolog event from the
logger's context, appends every call-site field via `event.Interface(k, v)`,
then emits the message.  The same merge is performed by Debug/Warn/Error. -/
def CtxLogger.infoRecord (l : CtxLogger) (msg : String)
    (callFields : List (String × LogValue)) : LogRecord :=
  LogRecord.mk Level.info msg (l.fields ++ callFields)

/-- Lookup in a serialized field list with JSON duplicate-key semantics: the
last occurrence of a key is the one a JSON consumer reads (zerolog does not
deduplicate keys; it appends, and later occurrences win on parse). -/
def lookupLast (fs : List (String × LogValue)) (k : String) : Option LogValue :=
  (fs.reverse.find? (fun p => p.1 == k)).map (fun p => p.2)

theorem lookupLast_append (a b : List (String × LogValue)) (k : String) :
    lookupLast (a ++ b) k = (lookupLast b k).orElse (fun _ => lookupLast a k) := by
  unfold lookupLast
  rw [List.reverse_append, List.find?_append]
  cases b.reverse.find? (fun p => p.1 == k) <;> simp [Option.orElse]

theorem lookupLast_snoc_self (a : List (String × LogValue)) (k : String) (v : LogValue) :
    lookupLast (a ++ [(k, v)]) k = some v := by
  rw [lookupLast_append]
  simp [lookupLast]

theorem lookupLast_snoc_ne (a : List (String × LogValue)) (k k2 : String) (v : LogValue)
    (h : k2 ≠ k) : lookupLast (a ++ [(k, v)]) k2 = lookupLast a k2 := by
  rw [lookupLast_append]
  have hne : (k == k2) = false := by
    simp [beq_iff_eq]
    intro hk
    exact h hk.symm
  simp [lookupLast, hne, Option.orElse]

/-- RFC3339 layout string used by the production logger configuration. -/
def rfc3339 : String := "2006-01-02T15:04:05Z07:00"

/-- Short time layout used by the development logger configuration. -/
def shortTime : String := "15:04:05"

/-- The output sink wiring chosen by `logger.New`.  zerolog's default writer
emits one machine-parseable JSON object per record; `zerolog.ConsoleWriter`
parses that JSON and re-renders it as a human-friendly console line (with the
given time layout, and optionally the emoji level formatter). -/
inductive Sink where
  | jsonStdout
  | consoleWriter (timeFormat : String) (emojiLevels : Bool)
deriving DecidableEq, Repr

/-- Whether a sink produces a machine-parseable structured record (zerolog's
default JSON writer does; ConsoleWriter renders human-readable lines). -/
def sinkMachineParseable : Sink → Bool
  | Sink.jsonStdout => true
  | Sink.consoleWriter _ _ => false

/-- The configuration `logger.New` installs: global minimum level, the global
time-field layout, the output sink, and the default context fields. -/
structure LoggerConfig where
  level : Level
  timeFieldFormat : String
  sink : Sink
  baseFields : List (String × LogValue)
deriving DecidableEq, Repr

/-- Embeds `logger.New` (pkg/logger): reads the `ENV` variable (empty means
unset, defaulted to `dev`); for `prod`/`production` it sets Info level, the
RFC3339 time-field format and a ConsoleWriter with RFC3339 timestamps; for
every other value it sets Debug level, short timestamps and a ConsoleWriter
with the emoji level formatter.  It then attaches the `service` and
`environment` default fields.  Construction is total: it never fails. -/
def loggerNew (envValue : String) : LoggerConfig :=
  let env := if envValue = "" then "dev" else envValue
  if env = "prod" ∨ env = "production" then
    LoggerConfig.mk Level.info rfc3339 (Sink.consoleWriter rfc3339 false)
      [("service", LogValue.str "k8s-controller"), ("environment", LogValue.str env)]
  else
    LoggerConfig.mk Level.debug shortTime (Sink.consoleWriter shortTime true)
      [("service", LogValue.str "k8s-controller"), ("environment", LogValue.str env)]

/-- C4: for all field mappings F1 (a logger's context, however derived) and F2
(the call-site fields), the emitted record's field set is F1 ∪ F2 with F2
taking precedence on key collision; the logger's own field list enters the
record only as an unchanged prefix (derivation copies, so the parent is never
mutated); deriving with an already-present key (for example chaining
`WithNamespace` twice) overwrites the key in the child logger only, while the
parent still resolves it to its own value. -/
theorem C4_field_merge (l : CtxLogger) (msg : String)
    (F2 : List (String × LogValue)) (k k2 ns1 ns2 : String) :
    (lookupLast (l.infoRecord msg F2).fields k
      = (lookupLast F2 k).orElse (fun _ => lookupLast l.fields k))
    ∧ ((lookupLast (l.infoRecord msg F2).fields k).isSome
      ↔ (lookupLast F2 k).isSome ∨ (lookupLast l.fields k).isSome)
    ∧ (l.infoRecord msg F2).fields = l.fields ++ F2
    ∧ lookupLast ((l.withNamespaceField ns1).withNamespaceField ns2).fields "namespace"
      = some (LogValue.str ns2)
    ∧ lookupLast (l.withNamespaceField ns1).fields "namespace"
      = some (LogValue.str ns1)
    ∧ (k2 ≠ "namespace" →
      lookupLast (l.withNamespaceField ns1).fields k2 = lookupLast l.fields k2) := by
  refine ⟨?_, ?_, rfl, ?_, ?_, ?_⟩
  · exact lookupLast_append l.fields F2 k
  · rw [CtxLogger.infoRecord, lookupLast_append]
    cases lookupLast F2 k <;> simp [Option.orElse]
  · exact lookupLast_snoc_self _ _ _
  · exact lookupLast_snoc_self _ _ _
  · intro h
    exact lookupLast_snoc_ne _ _ _ _ h

theorem C4_field_merge_witness :
    (lookupLast ((CtxLogger.mk [("a", LogValue.num 1)]).infoRecord "m"
        [("a", LogValue.num 2)]).fields "a"
      = (lookupLast [("a", LogValue.num 2)] "a").orElse
        (fun _ => lookupLast [("a", LogValue.num 1)] "a"))
    ∧ ("b" ≠ "namespace" →
      lookupLast ((CtxLogger.mk [("b", LogValue.num 3)]).withNamespaceField "ns").fields "b"
        = lookupLast [("b", LogValue.num 3)] "b") := by
  have h := C4_field_merge (CtxLogger.mk [("a", LogValue.num 1)]) "m"
    [("a", LogValue.num 2)] "a" "b" "ns" "ns2"
  have h2 := C4_field_merge (CtxLogger.mk [("b", LogValue.num 3)]) "m"
    [("a", LogValue.num 2)] "a" "b" "ns" "ns2"
  exact ⟨h.1, h2.2.2.2.2.2⟩

/-- C5 (failing part shown at ENV=prod): construction is total and the levels
and time formats follow the spec, but the production branch wires a
`zerolog.ConsoleWriter` — human-readable console rendering — rather than the
machine-parseable JSON writer its own comment announces; the development
fallback (empty or unrecognized ENV) does use Debug level, short timestamps
and the console renderer as claimed. -/
theorem C5_prod_console_writer :
    (loggerNew "prod").level = Level.info
    ∧ (loggerNew "production").level = Level.info
    ∧ (loggerNew "prod").timeFieldFormat = rfc3339
    ∧ (loggerNew "prod").sink = Sink.consoleWriter rfc3339 false
    ∧ sinkMachineParseable (loggerNew "prod").sink = false
    ∧ sinkMachineParseable (loggerNew "production").sink = false
    ∧ (loggerNew "").level = Level.debug
    ∧ (loggerNew "").sink = Sink.consoleWriter shortTime true
    ∧ (loggerNew "").timeFieldFormat = shortTime
    ∧ (loggerNew "staging").level = Level.debug
    ∧ (loggerNew "staging").sink = Sink.consoleWriter shortTime true
    ∧ (loggerNew "").baseFields
      = [("service", LogValue.str "k8s-controller"), ("environment", LogValue.str "dev")] := by
  refine ⟨rfl, rfl, rfl, rfl, rfl, rfl, rfl, rfl, rfl, rfl, rfl, rfl⟩

/-- A JSON value, the shape `encoding/json.Marshal` produces for the server's
response envelopes. -/
inductive Json where
  | null
  | boolJ (b : Bool)
  | num (n : Int)
  | str (s : String)
  | arr (xs : List Json)
  | obj (fields : List (String × Json))

/-- Field lookup in a JSON object (none on non-objects or missing keys). -/
def Json.getField : Json → String → Option Json
  | Json.obj fs, k => (fs.find? (fun p => p.1 == k)).map (fun p => p.2)
  | _, _ => none

/-- A Go slice: `var s []T` is the nil slice; `append` always yields a
non-nil slice.  `encoding/json` marshals the nil slice as JSON `null` and a
non-nil slice as a JSON array. -/
structure GoSlice (α : Type) where
  isNil : Bool
  elems : List α
deriving DecidableEq, Repr

/-- The zero value `var s []T`: the nil slice. -/
def GoSlice.nilSlice {α : Type} : GoSlice α :=
  GoSlice.mk true []

/-- `append(s, x)`: the result is never nil. -/
def GoSlice.push {α : Type} (s : GoSlice α) (x : α) : GoSlice α :=
  GoSlice.mk false (s.elems ++ [x])

/-- `encoding/json` marshaling of a slice whose elements marshal via `f`:
the nil slice encodes as JSON null, any other slice as an array. -/
def GoSlice.marshal {α : Type} (s : GoSlice α) (f : α → Json) : Json :=
  if s.isNil then Json.null else Json.arr (s.elems.map f)

/-- The `Response` envelope of cmd/server.go: `Success` always marshals;
`Data`, `Error` and `Message` carry `omitempty`, so a nil Data, empty Error
or empty Message is omitted from the serialized object. -/
structure Response where
  success : Bool
  data : Option Json
  error : String
  message : String

/-- `json.Marshal` of a `Response`, in struct field order with the
`omitempty` rules applied. -/
def Response.marshal (r : Response) : Json :=
  Json.obj ([("success", Json.boolJ r.success)]
    ++ (match r.data with
        | some d => [("data", d)]
        | none => [])
    ++ (if r.error = "" then [] else [("error", Json.str r.error)])
    ++ (if r.message = "" then [] else [("message", Json.str r.message)]))

/-- A deployment as the handlers read it: `Spec.Replicas` is a `*int32`, so
it is an optional value; the status counts are plain int32 fields. -/
structure Deployment where
  name : String
  nspace : String
  specReplicas : Option Int
  readyReplicas : Int
  availableReplicas : Int
  updatedReplicas : Int
deriving DecidableEq, Repr

/-- The `DeploymentStatus` record cmd/server.go builds per deployment. -/
structure DeploymentStatus where
  name : String
  nspace : String
  readyReplicas : Int
  desiredReplicas : Int
  availableReplicas : Int
  updatedReplicas : Int
  healthy : Bool
deriving DecidableEq, Repr

/-- `json.Marshal` of a `DeploymentStatus`, in struct field order with the
json tags of cmd/server.go. -/
def DeploymentStatus.marshal (s : DeploymentStatus) : Json :=
  Json.obj [("name", Json.str s.name), ("namespace", Json.str s.nspace),
    ("ready_replicas", Json.num s.readyReplicas),
    ("desired_replicas", Json.num s.desiredReplicas),
    ("available_replicas", Json.num s.availableReplicas),
    ("updated_replicas", Json.num s.updatedReplicas),
    ("healthy", Json.boolJ s.healthy)]

/-- Embeds the per-deployment body of the loop in `handleGetDeployments`
(cmd/server.go): `desired` is the value read from `*deployment.Spec.Replicas`
and `Healthy` is `readyReplicas >= desiredReplicas`. -/
def mkDeploymentStatus (d : Deployment) (desired : Int) : DeploymentStatus :=
  DeploymentStatus.mk d.name d.nspace d.readyReplicas desired
    d.availableReplicas d.updatedReplicas (decide (d.readyReplicas ≥ desired))

/-- The Go runtime message of a nil-pointer dereference panic. -/
def nilDerefMsg : String :=
  "runtime error: invalid memory address or nil pointer dereference"

/-- What a handler invocation does: either it panics (nil dereference) or it
writes a status code with an optional JSON body. -/
inductive HandlerOutcome where
  | panicked (msg : String)
  | resp (status : Int) (body : Option Json)

/-- Embeds `sendErrorResponse` (cmd/server.go): success false, the caller's
message as `error`, `err.Error()` as `message`, and the caller's status. -/
def sendErrorResponse (message errText : String) (statusCode : Int) : HandlerOutcome :=
  HandlerOutcome.resp statusCode
    (some (Response.marshal (Response.mk false none message errText)))

/-- The loop of `handleGetDeployments` over `deployments.Items`: each
iteration dereferences `deployment.Spec.Replicas` (panicking when nil) and
appends the built `DeploymentStatus` to the accumulator slice. -/
def buildStatuses : List Deployment → GoSlice DeploymentStatus →
    Except String (GoSlice DeploymentStatus)
  | [], acc => Except.ok acc
  | d :: rest, acc =>
    match d.specReplicas with
    | none => Except.error nilDerefMsg
    | some desired => buildStatuses rest (acc.push (mkDeploymentStatus d desired))

/-- Embeds `handleGetDeployments` (cmd/server.go).  The namespace query
parameter defaults to `default`; the input stands for the result of the
`Deployments(namespace).List` call; on list error it sends a 500 error
envelope; otherwise it builds the status slice (panicking on a nil
`Spec.Replicas`) and replies 200 with the map data (Go marshals map keys in
sorted order: count, deployments, namespace). -/
def handleGetDeployments (listResult : Except String (List Deployment))
    (nsParam : String) : HandlerOutcome :=
  let ns := if nsParam = "" then "default" else nsParam
  match listResult with
  | Except.error e => sendErrorResponse "Failed to get deployments" e 500
  | Except.ok items =>
    match buildStatuses items GoSlice.nilSlice with
    | Except.error m => HandlerOutcome.panicked m
    | Except.ok statuses =>
      HandlerOutcome.resp 200
        (some (Response.marshal (Response.mk true
          (some (Json.obj [("count", Json.num statuses.elems.length),
            ("deployments", statuses.marshal DeploymentStatus.marshal),
            ("namespace", Json.str ns)]))
          "" "")))

/-- The health-counting loop of `handleGetStatus` (cmd/server.go): a
deployment counts as healthy when `Status.ReadyReplicas >= *Spec.Replicas`
(the dereference panics on nil), otherwise as unhealthy. -/
def countHealth : List Deployment → Int × Int → Except String (Int × Int)
  | [], acc => Except.ok acc
  | d :: rest, acc =>
    match d.specReplicas with
    | none => Except.error nilDerefMsg
    | some desired =>
      if d.readyReplicas ≥ desired then
        countHealth rest (acc.1 + 1, acc.2)
      else
        countHealth rest (acc.1, acc.2 + 1)

/-- A Kubernetes event as the handlers read it from the core API. -/
structure ClusterEvent where
  etype : String
  reason : String
  message : String
  lastTimestamp : String
  involvedObjectName : String
deriving DecidableEq, Repr

/-- `json.Marshal` of the server's `Event` struct, in field order with its
json tags. -/
def mkEvent (e : ClusterEvent) : Json :=
  Json.obj [("type", Json.str e.etype), ("reason", Json.str e.reason),
    ("message", Json.str e.message), ("timestamp", Json.str e.lastTimestamp),
    ("object", Json.str e.involvedObjectName)]

/-- Accumulate the digits of a decimal literal; none when a non-digit occurs
or the list is empty (strconv.ParseInt requires at least one digit and, in
base 10, accepts only ASCII digits). -/
def digitsVal (cs : List Char) : Option Nat :=
  if cs.isEmpty then none
  else cs.foldl (fun acc c =>
    match acc with
    | none => none
    | some n => if c.isDigit then some (n * 10 + (c.toNat - 48)) else none)
    (some 0)

/-- Largest value of Go's 64-bit int. -/
def goIntMax : Int := 9223372036854775807

/-- Smallest value of Go's 64-bit int. -/
def goIntMin : Int := -9223372036854775808

/-- Models `strconv.Atoi`: an optional sign followed by at least one decimal
digit, rejecting the empty string, non-digits and values outside the 64-bit
int range (on range overflow Atoi returns a non-nil error, which is all the
caller tests). -/
def goAtoi (s : String) : Option Int :=
  match s.toList with
  | [] => none
  | c :: rest =>
    if c = '-' then
      (digitsVal rest).bind (fun n =>
        if Int.ofNat n > -goIntMin then none else some (-(Int.ofNat n)))
    else if c = '+' then
      (digitsVal rest).bind (fun n =>
        if Int.ofNat n > goIntMax then none else some (Int.ofNat n))
    else
      (digitsVal (c :: rest)).bind (fun n =>
        if Int.ofNat n > goIntMax then none else some (Int.ofNat n))

/-- Embeds the limit computation of `handleGetEvents` (cmd/server.go): start
from 10; when the query value is non-empty, Atoi parses it and a successful
parse of a positive value replaces the default. -/
def effectiveLimit (limitStr : String) : Int :=
  if limitStr = "" then 10
  else
    match goAtoi limitStr with
    | some l => if l > 0 then l else 10
    | none => 10

/-- The `[]Event` accumulation loop of `handleGetEvents`: starts from the nil
slice and appends one entry per listed event. -/
def buildEventSlice (items : List ClusterEvent) : GoSlice ClusterEvent :=
  items.foldl GoSlice.push GoSlice.nilSlice

/-- Embeds `handleGetEvents` (cmd/server.go): resolves the limit, performs
the events list call with that limit, sends a 500 error envelope on failure
and otherwise a 200 envelope with count/events/namespace (map keys in the
sorted order Go marshals them). -/
def handleGetEvents (listResult : Int → Except String (List ClusterEvent))
    (nsParam limitStr : String) : HandlerOutcome :=
  match listResult (effectiveLimit limitStr) with
  | Except.error e => sendErrorResponse "Failed to get events" e 500
  | Except.ok items =>
    HandlerOutcome.resp 200 (some (Response.marshal (Response.mk true
      (some (Json.obj [("count", Json.num (buildEventSlice items).elems.length),
        ("events", (buildEventSlice items).marshal mkEvent),
        ("namespace", Json.str (if nsParam = "" then "default" else nsParam))]))
      "" "")))

/-- The pod phase histogram of `handleGetStatus`: a Go map from phase to
count, which `json.Marshal` renders with its keys in sorted order. -/
def podHistogram (phases : List String) : List (String × Json) :=
  ((phases.dedup).insertionSort (fun a b => a ≤ b)).map (fun p =>
    (p, Json.num ((phases.filter (fun q => q == p)).length)))

/-- Embeds `handleGetStatus` (cmd/server.go): lists deployments, pods and
services in that order, each failure becoming a 500 error envelope; then
counts healthy/unhealthy deployments (dereferencing `Spec.Replicas`, which
panics on nil) and replies 200 with the aggregate map (keys in Go's sorted
marshal order). -/
def handleGetStatus (depResult : Except String (List Deployment))
    (podPhases : Except String (List String)) (svcCount : Except String Int)
    (nsParam now : String) : HandlerOutcome :=
  match depResult with
  | Except.error e => sendErrorResponse "Failed to get deployments" e 500
  | Except.ok deps =>
    match podPhases with
    | Except.error e => sendErrorResponse "Failed to get pods" e 500
    | Except.ok pods =>
      match svcCount with
      | Except.error e => sendErrorResponse "Failed to get services" e 500
      | Except.ok svcs =>
        match countHealth deps (0, 0) with
        | Except.error m => HandlerOutcome.panicked m
        | Except.ok hc =>
          HandlerOutcome.resp 200 (some (Response.marshal (Response.mk true
            (some (Json.obj
              [("deployments", Json.obj [("healthy", Json.num hc.1),
                ("total", Json.num deps.length), ("unhealthy", Json.num hc.2)]),
               ("namespace", Json.obj [("name",
                 Json.str (if nsParam = "" then "default" else nsParam))]),
               ("pods", Json.obj [("status", Json.obj (podHistogram pods)),
                 ("total", Json.num pods.length)]),
               ("services", Json.obj [("total", Json.num svcs)]),
               ("timestamp", Json.str now)]))
            "" "")))

/-- Embeds `handleHealth` (cmd/server.go). -/
def handleHealth (now : String) : HandlerOutcome :=
  HandlerOutcome.resp 200 (some (Response.marshal (Response.mk true
    (some (Json.obj [("timestamp", Json.str now), ("version", Json.str "1.0.0")]))
    "" "Server is healthy")))

/-- Embeds `handleWatchDeployments` (cmd/server.go): the SSE placeholder. -/
def handleWatchDeployments : HandlerOutcome :=
  HandlerOutcome.resp 200 (some (Response.marshal (Response.mk true
    (some (Json.obj [("feature", Json.str "deployment_watching"),
      ("status", Json.str "not_implemented")]))
    "" "Watch endpoint - implement SSE for real-time updates")))

/-- Embeds `handleNotFound` (cmd/server.go). -/
def handleNotFound : HandlerOutcome :=
  HandlerOutcome.resp 404 (some (Response.marshal
    (Response.mk false none "Endpoint not found" "The requested endpoint does not exist")))

/-- The dispatch alternatives of `createHandler` (cmd/server.go): the OPTIONS
preflight return, the five routed path/method pairs, and the default. -/
inductive Route where
  | preflight
  | health
  | getDeployments
  | watchRoute
  | getEvents
  | getStatus
  | notFound
deriving DecidableEq, Repr

/-- The route selection of `createHandler`: preflight requests return first,
then the path/method switch, `handleNotFound` being the default case. -/
def routeOf (method path : String) : Route :=
  if method = "OPTIONS" then Route.preflight
  else if path = "/health" ∧ method = "GET" then Route.health
  else if path = "/api/v1/deployments" ∧ method = "GET" then Route.getDeployments
  else if path = "/api/v1/deployments" ∧ method = "POST" then Route.watchRoute
  else if path = "/api/v1/events" ∧ method = "GET" then Route.getEvents
  else if path = "/api/v1/status" ∧ method = "GET" then Route.getStatus
  else Route.notFound

/-- The cluster reads the handlers perform, as the results the API calls
would return: the deployments list, the events list as a function of the
requested limit, the pod phases, and the service count. -/
structure ClusterState where
  deployments : Except String (List Deployment)
  eventsAt : Int → Except String (List ClusterEvent)
  podPhases : Except String (List String)
  serviceCount : Except String Int

/-- Embeds the request dispatch of `createHandler` (cmd/server.go): an
OPTIONS request returns 200 with no body; otherwise the matching handler
runs, `handleNotFound` for every unmatched path/method pair. -/
def createHandler (st : ClusterState) (method path nsParam limitStr now : String) :
    HandlerOutcome :=
  match routeOf method path with
  | Route.preflight => HandlerOutcome.resp 200 none
  | Route.health => handleHealth now
  | Route.getDeployments => handleGetDeployments st.deployments nsParam
  | Route.watchRoute => handleWatchDeployments
  | Route.getEvents => handleGetEvents st.eventsAt nsParam limitStr
  | Route.getStatus =>
    handleGetStatus st.deployments st.podPhases st.serviceCount nsParam now
  | Route.notFound => handleNotFound

/-- An opaque parsed client configuration (`*rest.Config`). -/
structure Config where
  token : String
deriving DecidableEq, Repr

/-- The environment `getKubernetesClient` (cmd/controller.go, informer
variant) reads: the command flags, the process environment, and the fallible
external dependencies — `rest.InClusterConfig`,
`clientcmd.BuildConfigFromFlags` (none when the file at the path is missing
or unparseable) and `kubernetes.NewForConfig`. -/
structure ClientEnv where
  inCluster : Bool
  kubeconfigFlag : String
  envKubeconfig : String
  envHome : String
  loadKubeconfig : String → Option Config
  inClusterConfig : Option Config
  newForConfig : Config → Option String

/-- Embeds the path resolution of `getKubernetesClient`: start from the
`--kubeconfig` flag, fall back to the `KUBECONFIG` environment variable, then
to `$HOME/.kube/config`. -/
def resolveKubeconfigPath (e : ClientEnv) : String :=
  let p1 := e.kubeconfigFlag
  let p2 := if p1 = "" then e.envKubeconfig else p1
  if p2 = "" then e.envHome ++ "/.kube/config" else p2

/-- Embeds `getKubernetesClient` (cmd/controller.go, informer variant): the
in-cluster branch loads the in-cluster config, the other branch resolves a
kubeconfig path and loads the file; both then build the clientset.  Each
failure is wrapped in the corresponding error message. -/
def getKubernetesClient (e : ClientEnv) : Except String String :=
  if e.inCluster then
    match e.inClusterConfig with
    | none => Except.error "failed to load in-cluster config"
    | some cfg =>
      match e.newForConfig cfg with
      | none => Except.error "failed to create clientset"
      | some cs => Except.ok cs
  else
    match e.loadKubeconfig (resolveKubeconfigPath e) with
    | none => Except.error "failed to load kubeconfig"
    | some cfg =>
      match e.newForConfig cfg with
      | none => Except.error "failed to create clientset"
      | some cs => Except.ok cs

/-- Embeds `showRecentEvents` (cmd/controller.go) as the level/message trace
it logs: the fetch announcement, then either the error record or the
retrieved-count record followed by one record per event whose level follows
the event type (Warning/Normal/other). -/
def showRecentEvents (eventsResult : Except String (List ClusterEvent)) :
    List (Level × String) :=
  (Level.info, "Fetching recent events") ::
  (match eventsResult with
   | Except.error _ => [(Level.error, "Failed to get events")]
   | Except.ok items =>
     (Level.info, "Events retrieved") ::
     items.map (fun e =>
       if e.etype = "Warning" then (Level.warn, "Kubernetes event")
       else if e.etype = "Normal" then (Level.debug, "Kubernetes event")
       else (Level.info, "Kubernetes event")))

/-- The per-deployment loop of `showDeploymentStatus`: each iteration
dereferences `deployment.Spec.Replicas` (the second component is true when
that dereference panics), logs the status record and a warning when fewer
replicas are ready than desired. -/
def deploymentStatusLoop : List Deployment → List (Level × String) →
    List (Level × String) × Bool
  | [], acc => (acc, false)
  | d :: rest, acc =>
    match d.specReplicas with
    | none => (acc, true)
    | some desired =>
      deploymentStatusLoop rest (acc ++ [(Level.info, "Deployment status")] ++
        (if d.readyReplicas < desired then
          [(Level.warn, "Deployment has fewer ready replicas than desired")]
         else []))

/-- Embeds `showDeploymentStatus` (cmd/controller.go) as its logged trace and
whether it panicked: on list failure it logs the error and returns; otherwise
it loops over the deployments and finally shows the recent events. -/
def showDeploymentStatus (listResult : Except String (List Deployment))
    (eventsResult : Except String (List ClusterEvent)) :
    List (Level × String) × Bool :=
  match listResult with
  | Except.error _ =>
    ([(Level.info, "Fetching deployment status"),
      (Level.error, "Failed to get deployments")], false)
  | Except.ok items =>
    match deploymentStatusLoop items
      [(Level.info, "Fetching deployment status"),
       (Level.info, "Deployment status retrieved")] with
    | (logs, true) => (logs, true)
    | (logs, false) => (logs ++ showRecentEvents eventsResult, false)

/-- What the informer mode does after starting the factory. -/
inductive InformerOutcome where
  | exited (code : Int)
  | watching
deriving DecidableEq, Repr

/-- Embeds the cache-sync loop of `watchDeploymentsWithInformer`
(cmd/controller.go): iterate over the per-type results of
`factory.WaitForCacheSync`; the first failed sync logs an error-level record
and exits the process with code 1; when every type synced, log success and
proceed to watch. -/
def waitForCacheSync : List (String × Bool) →
    List (Level × String) × InformerOutcome
  | [] =>
    ([(Level.info, "Informer cache synced successfully")],
     InformerOutcome.watching)
  | (_, ok) :: rest =>
    if ok then waitForCacheSync rest
    else ([(Level.error, "Failed to sync informer")], InformerOutcome.exited 1)

/-- One event received on the raw watch channel: the watch event type and
the deployment object it carries. -/
structure WatchEvent where
  etype : String
  deployment : Deployment
deriving DecidableEq, Repr

/-- Terminal state of the raw watch loop. -/
inductive WatchOutcome where
  | terminated
  | failedCreate
  | panicked
deriving DecidableEq, Repr

/-- The receive loop of `watchDeployments` (cmd/controller.go, raw-watch
variant): each received event logs an info record (dereferencing
`Spec.Replicas`, so a nil pointer panics); the loop ends when the channel
closes. -/
def watchLoop : List WatchEvent → List (Level × String) →
    List (Level × String) × WatchOutcome
  | [], acc => (acc, WatchOutcome.terminated)
  | e :: rest, acc =>
    match e.deployment.specReplicas with
    | none => (acc, WatchOutcome.panicked)
    | some _ => watchLoop rest (acc ++ [(Level.info, "Deployment event detected")])

/-- Embeds `watchDeployments` (cmd/controller.go, raw-watch variant) as its
logged trace and terminal state: a failed `Watch` call logs one error-level
record and returns without retrying; otherwise the loop consumes the stream
until it closes and returns without any error-level record. -/
def watchDeployments (watchResult : Except String (List WatchEvent)) :
    List (Level × String) × WatchOutcome :=
  match watchResult with
  | Except.error _ =>
    ([(Level.info, "Starting deployment watcher"),
      (Level.error, "Failed to create deployment watcher")],
     WatchOutcome.failedCreate)
  | Except.ok events =>
    watchLoop events
      [(Level.info, "Starting deployment watcher"),
       (Level.info, "Deployment watcher started successfully")]

/-- C1: for every observed deployment, the health bit built by
`handleGetDeployments` and the healthy/unhealthy classification of
`handleGetStatus` are the same predicate `ready >= desired`; the boundary
case ready = desired = 0 is classified healthy. -/
theorem C1_health_predicate (nm ns : String) (ready avail upd desired : Int) :
    (mkDeploymentStatus (Deployment.mk nm ns (some desired) ready avail upd) desired).healthy
      = decide (ready ≥ desired)
    ∧ countHealth [Deployment.mk nm ns (some desired) ready avail upd] (0, 0)
      = Except.ok (if ready ≥ desired then (1, 0) else (0, 1))
    ∧ ((mkDeploymentStatus (Deployment.mk nm ns (some desired) ready avail upd) desired).healthy
        = true
      ↔ countHealth [Deployment.mk nm ns (some desired) ready avail upd] (0, 0)
        = Except.ok (1, 0))
    ∧ (mkDeploymentStatus (Deployment.mk nm ns (some 0) 0 avail upd) 0).healthy = true := by
  by_cases h : ready ≥ desired
  · refine ⟨by simp [mkDeploymentStatus, h], by simp [countHealth, h], ?_, by simp [mkDeploymentStatus]⟩
    simp [mkDeploymentStatus, countHealth, h]
  · refine ⟨by simp [mkDeploymentStatus, h], by simp [countHealth, h], ?_, by simp [mkDeploymentStatus]⟩
    simp [mkDeploymentStatus, countHealth, h]

/-- C2 counterexample: with a successful but empty deployments list, the
accumulator slice stays the nil slice, which `json.Marshal` renders as JSON
null — not as the empty array the claim states. -/
theorem C2_nil_slice_counterexample :
    (match handleGetDeployments (Except.ok []) "empty-ns" with
      | HandlerOutcome.resp _ (some body) =>
        (body.getField "data").bind (fun d => d.getField "deployments")
      | _ => none) = some Json.null
    ∧ some Json.null ≠ some (Json.arr []) := by
  refine ⟨rfl, fun h => ?_⟩
  cases h

/-- C2 amended: on a successful empty list the response is a 200 success
envelope with count 0 and the deployments field serialized as JSON null (the
Go nil slice), not an error response. -/
theorem C2_empty_list_response :
    handleGetDeployments (Except.ok []) "empty-ns"
      = HandlerOutcome.resp 200 (some (Json.obj [("success", Json.boolJ true),
          ("data", Json.obj [("count", Json.num 0), ("deployments", Json.null),
            ("namespace", Json.str "empty-ns")])])) := rfl

/-- C3: the events handler's limit resolution: a value that Atoi parses to a
positive integer is used unchanged (and is exactly the limit the handler
passes to the list call — two list functions agreeing at the effective limit
make the handler agree); every other value (absent, non-numeric, zero,
negative) resolves to the default 10; the computation is total, so the
handler never fails on an invalid limit. -/
theorem C3_event_limit (s : String) (l : Int) (ns : String)
    (f g : Int → Except String (List ClusterEvent)) :
    (goAtoi s = some l → 0 < l → effectiveLimit s = l)
    ∧ (goAtoi s = none → effectiveLimit s = 10)
    ∧ (goAtoi s = some l → l ≤ 0 → effectiveLimit s = 10)
    ∧ effectiveLimit "" = 10
    ∧ effectiveLimit "abc" = 10
    ∧ effectiveLimit "0" = 10
    ∧ effectiveLimit "-5" = 10
    ∧ effectiveLimit "10" = 10
    ∧ effectiveLimit "100" = 100
    ∧ (f (effectiveLimit s) = g (effectiveLimit s) →
        handleGetEvents f ns s = handleGetEvents g ns s) := by
  refine ⟨?_, ?_, ?_, rfl, rfl, rfl, rfl, rfl, rfl, ?_⟩
  · intro h hl
    by_cases hs : s = ""
    · rw [hs] at h
      exact absurd h (by simp [goAtoi])
    · simp [effectiveLimit, hs, h, hl]
  · intro h
    by_cases hs : s = ""
    · simp [effectiveLimit, hs]
    · simp [effectiveLimit, hs, h]
  · intro h hl
    by_cases hs : s = ""
    · simp [effectiveLimit, hs]
    · have : ¬ (0 < l) := not_lt.mpr hl
      simp [effectiveLimit, hs, h, this]
  · intro hfg
    unfold handleGetEvents
    rw [hfg]

theorem C3_event_limit_witness :
    goAtoi "7" = some 7 ∧ (0 : Int) < 7 ∧ effectiveLimit "7" = 7 := by
  refine ⟨rfl, by decide, ?_⟩
  exact (C3_event_limit "7" 7 "default" (fun _ => Except.ok [])
    (fun _ => Except.ok [])).1 rfl (by decide)

/-- C6: outside the in-cluster branch the kubeconfig path is resolved with
precedence flag > KUBECONFIG environment variable > HOME-relative default,
and (given that clientset construction succeeds on any parsed config, as it
does for a loadable kubeconfig) the call fails exactly when the file at the
resolved path is missing or unparseable. -/
theorem C6_kubeconfig_resolution (e : ClientEnv) (h : e.inCluster = false)
    (hn : ∀ c, (e.newForConfig c).isSome) :
    resolveKubeconfigPath e
      = (if e.kubeconfigFlag ≠ "" then e.kubeconfigFlag
         else if e.envKubeconfig ≠ "" then e.envKubeconfig
         else e.envHome ++ "/.kube/config")
    ∧ ((∃ err, getKubernetesClient e = Except.error err)
      ↔ e.loadKubeconfig (resolveKubeconfigPath e) = none) := by
  constructor
  · unfold resolveKubeconfigPath
    by_cases h1 : e.kubeconfigFlag = ""
    · by_cases h2 : e.envKubeconfig = "" <;> simp [h1, h2]
    · simp [h1]
  · simp only [getKubernetesClient, h]
    cases hload : e.loadKubeconfig (resolveKubeconfigPath e) with
    | none => simp
    | some cfg =>
      have hcfg := hn cfg
      cases hcs : e.newForConfig cfg with
      | none =>
        rw [hcs] at hcfg
        exact absurd hcfg (by simp)
      | some cs => simp [hload, hcs]

theorem C6_kubeconfig_resolution_witness :
    resolveKubeconfigPath (ClientEnv.mk false "flag.yaml" "env.yaml" "/home/u"
        (fun _ => some (Config.mk "c")) none (fun _ => some "cs"))
      = (if ("flag.yaml" : String) ≠ "" then "flag.yaml"
         else if ("env.yaml" : String) ≠ "" then "env.yaml"
         else "/home/u" ++ "/.kube/config") := by
  exact (C6_kubeconfig_resolution (ClientEnv.mk false "flag.yaml" "env.yaml" "/home/u"
    (fun _ => some (Config.mk "c")) none (fun _ => some "cs")) rfl (fun c => rfl)).1

/-- C7: every request whose path/method pair matches none of the defined
dispatch cases gets the 404 not-found envelope with success false and the
error string; and every error path of the handlers goes through
`sendErrorResponse`, which populates success false, the error string and the
caller's failure status (500 at every call site, 404 for not-found). -/
theorem C7_error_envelopes (st : ClusterState)
    (m p nsq limitStr now e msg errText : String) (code : Int) :
    (routeOf m p = Route.notFound →
      createHandler st m p nsq limitStr now
        = HandlerOutcome.resp 404 (some (Json.obj
            [("success", Json.boolJ false),
             ("error", Json.str "Endpoint not found"),
             ("message", Json.str "The requested endpoint does not exist")])))
    ∧ routeOf "GET" "/nope" = Route.notFound
    ∧ routeOf "DELETE" "/api/v1/deployments" = Route.notFound
    ∧ (msg ≠ "" →
        (Response.marshal (Response.mk false none msg errText)).getField "success"
          = some (Json.boolJ false)
        ∧ (Response.marshal (Response.mk false none msg errText)).getField "error"
          = some (Json.str msg))
    ∧ sendErrorResponse msg errText code
      = HandlerOutcome.resp code
          (some (Response.marshal (Response.mk false none msg errText)))
    ∧ handleGetDeployments (Except.error e) nsq
      = sendErrorResponse "Failed to get deployments" e 500
    ∧ handleGetEvents (fun _ => Except.error e) nsq limitStr
      = sendErrorResponse "Failed to get events" e 500
    ∧ handleGetStatus (Except.error e) st.podPhases st.serviceCount nsq now
      = sendErrorResponse "Failed to get deployments" e 500 := by
  refine ⟨?_, rfl, rfl, ?_, rfl, rfl, rfl, rfl⟩
  · intro h
    unfold createHandler
    rw [h]
    rfl
  · intro h
    by_cases herr : errText = "" <;>
      simp [Response.marshal, Json.getField, h, herr, List.find?]

theorem C7_error_envelopes_witness :
    createHandler (ClusterState.mk (Except.ok []) (fun _ => Except.ok [])
        (Except.ok []) (Except.ok 0)) "GET" "/nope" "" "" "t"
      = HandlerOutcome.resp 404 (some (Json.obj
          [("success", Json.boolJ false),
           ("error", Json.str "Endpoint not found"),
           ("message", Json.str "The requested endpoint does not exist")]))
    ∧ ((Response.marshal (Response.mk false none "Failed to get pods" "boom")).getField
        "success" = some (Json.boolJ false)
      ∧ (Response.marshal (Response.mk false none "Failed to get pods" "boom")).getField
        "error" = some (Json.str "Failed to get pods")) := by
  have h := C7_error_envelopes (ClusterState.mk (Except.ok []) (fun _ => Except.ok [])
    (Except.ok []) (Except.ok 0)) "GET" "/nope" "" "" "t" "e" "Failed to get pods" "boom" 500
  exact ⟨h.1 rfl, h.2.2.2.1 (by decide)⟩

/-- C8: the informer mode proceeds past the cache-sync wait only when every
informer type synced; any failed sync makes it log an error-level record and
exit the process with code 1 immediately (fail-fast, never a retry), and the
loop always ends in one of those two outcomes. -/
theorem C8_sync_fail_fast (rs : List (String × Bool)) :
    ((waitForCacheSync rs).2 = InformerOutcome.watching ↔ ∀ p ∈ rs, p.2 = true)
    ∧ ((∃ p ∈ rs, p.2 = false) →
        waitForCacheSync rs
          = ([(Level.error, "Failed to sync informer")], InformerOutcome.exited 1))
    ∧ ((waitForCacheSync rs).2 = InformerOutcome.watching
      ∨ (waitForCacheSync rs).2 = InformerOutcome.exited 1) := by
  induction rs with
  | nil => simp [waitForCacheSync]
  | cons hd tl ih =>
    obtain ⟨t, ok⟩ := hd
    obtain ⟨ih1, ih2, ih3⟩ := ih
    cases ok with
    | true =>
      refine ⟨?_, ?_, ?_⟩
      · simp [waitForCacheSync, ih1]
      · intro hex
        simp only [waitForCacheSync, if_true]
        apply ih2
        rcases hex with ⟨p, hp, hfalse⟩
        rcases List.mem_cons.mp hp with heq | hmem
        · rw [heq] at hfalse
          exact absurd hfalse (by simp)
        · exact ⟨p, hmem, hfalse⟩
      · simpa [waitForCacheSync] using ih3
    | false =>
      refine ⟨?_, fun _ => by simp [waitForCacheSync], ?_⟩
      · simp [waitForCacheSync]
      · right
        simp [waitForCacheSync]

theorem C8_sync_fail_fast_witness :
    waitForCacheSync [("deployments", false)]
      = ([(Level.error, "Failed to sync informer")], InformerOutcome.exited 1) := by
  exact (C8_sync_fail_fast [("deployments", false)]).2.1
    ⟨("deployments", false), by simp, rfl⟩

theorem watchLoop_no_error (events : List WatchEvent) :
    ∀ acc, (∀ e ∈ events, e.deployment.specReplicas.isSome) →
      (∀ r ∈ acc, r.1 ≠ Level.error) →
      (∀ r ∈ (watchLoop events acc).1, r.1 ≠ Level.error)
      ∧ (watchLoop events acc).2 = WatchOutcome.terminated := by
  induction events with
  | nil =>
    intro acc _ hacc
    exact ⟨hacc, rfl⟩
  | cons e rest ih =>
    intro acc h hacc
    have he : e.deployment.specReplicas.isSome := h e (List.mem_cons_self _ _)
    cases hrep : e.deployment.specReplicas with
    | none =>
      rw [hrep] at he
      exact absurd he (by simp)
    | some v =>
      simp only [watchLoop, hrep]
      have hrest : ∀ x ∈ rest, x.deployment.specReplicas.isSome :=
        fun x hx => h x (List.mem_cons_of_mem _ hx)
      apply ih
      · exact hrest
      · intro r hr
        rcases List.mem_append.mp hr with h1 | h2
        · exact hacc r h1
        · have : r = (Level.info, "Deployment event detected") := by simpa using h2
          rw [this]
          simp

/-- C9: in raw watch mode a clean close of the event stream ends the loop in
the terminated state without any error-level record, while a failure to
establish the stream produces exactly one error-level record and the
terminal failed state — the watch is not reopened. -/
theorem C9_clean_close_vs_failure (events : List WatchEvent) (errMsg : String)
    (h : ∀ e ∈ events, e.deployment.specReplicas.isSome) :
    (∀ r ∈ (watchDeployments (Except.ok events)).1, r.1 ≠ Level.error)
    ∧ (watchDeployments (Except.ok events)).2 = WatchOutcome.terminated
    ∧ ((watchDeployments (Except.error errMsg)).1.filter
        (fun r => r.1 == Level.error)).length = 1
    ∧ (watchDeployments (Except.error errMsg)).2 = WatchOutcome.failedCreate := by
  have hloop := watchLoop_no_error events
    [(Level.info, "Starting deployment watcher"),
     (Level.info, "Deployment watcher started successfully")] h
    (by intro r hr; rcases List.mem_cons.mp hr with h1 | h2
        · rw [h1]; simp
        · have : r = (Level.info, "Deployment watcher started successfully") := by simpa using h2
          rw [this]; simp)
  exact ⟨hloop.1, hloop.2, rfl, rfl⟩

theorem C9_clean_close_vs_failure_witness :
    (watchDeployments (Except.ok ([] : List WatchEvent))).2 = WatchOutcome.terminated
    ∧ (watchDeployments (Except.error "read failure")).2 = WatchOutcome.failedCreate := by
  have h := C9_clean_close_vs_failure [] "read failure" (by intro e he; cases he)
  exact ⟨h.2.1, h.2.2.2⟩

theorem buildStatuses_ok (items : List Deployment) :
    ∀ acc, (∀ d ∈ items, d.specReplicas.isSome) →
      ∃ s, buildStatuses items acc = Except.ok s := by
  induction items with
  | nil => intro acc _; exact ⟨acc, rfl⟩
  | cons d rest ih =>
    intro acc h
    have hd : d.specReplicas.isSome := h d (List.mem_cons_self _ _)
    cases hrep : d.specReplicas with
    | none =>
      rw [hrep] at hd
      exact absurd hd (by simp)
    | some v =>
      simp only [buildStatuses, hrep]
      exact ih _ (fun x hx => h x (List.mem_cons_of_mem _ hx))

theorem countHealth_ok (items : List Deployment) :
    ∀ acc, (∀ d ∈ items, d.specReplicas.isSome) →
      ∃ hc, countHealth items acc = Except.ok hc := by
  induction items with
  | nil => intro acc _; exact ⟨acc, rfl⟩
  | cons d rest ih =>
    intro acc h
    have hd : d.specReplicas.isSome := h d (List.mem_cons_self _ _)
    cases hrep : d.specReplicas with
    | none =>
      rw [hrep] at hd
      exact absurd hd (by simp)
    | some v =>
      simp only [countHealth, hrep]
      by_cases hcmp : d.readyReplicas ≥ v <;>
        simp only [hcmp, if_true, if_false] <;>
        exact ih _ (fun x hx => h x (List.mem_cons_of_mem _ hx))

theorem deploymentStatusLoop_no_panic (items : List Deployment) :
    ∀ acc, (∀ d ∈ items, d.specReplicas.isSome) →
      (deploymentStatusLoop items acc).2 = false := by
  induction items with
  | nil => intro acc _; rfl
  | cons d rest ih =>
    intro acc h
    have hd : d.specReplicas.isSome := h d (List.mem_cons_self _ _)
    cases hrep : d.specReplicas with
    | none =>
      rw [hrep] at hd
      exact absurd hd (by simp)
    | some v =>
      simp only [deploymentStatusLoop, hrep]
      exact ih _ (fun x hx => h x (List.mem_cons_of_mem _ hx))

/-- C10: every path that renders deployment status (console report, the
deployments endpoint, the aggregate-status endpoint) dereferences
`Spec.Replicas` with no nil guard: when every listed deployment carries a
replica count the handlers answer normally, and a single deployment with a
nil `Spec.Replicas` drives each of the three paths into the nil-pointer
panic branch. -/
theorem C10_nil_replicas_deref (items : List Deployment) (ns now : String)
    (pods : Except String (List String)) (svcs : Except String Int)
    (evs : Except String (List ClusterEvent))
    (h : ∀ d ∈ items, d.specReplicas.isSome) :
    (∃ status body,
      handleGetDeployments (Except.ok items) ns = HandlerOutcome.resp status body)
    ∧ (∃ status body,
      handleGetStatus (Except.ok items) pods svcs ns now
        = HandlerOutcome.resp status body)
    ∧ (showDeploymentStatus (Except.ok items) evs).2 = false
    ∧ handleGetDeployments (Except.ok [Deployment.mk "d" "default" none 0 0 0]) "default"
      = HandlerOutcome.panicked nilDerefMsg
    ∧ handleGetStatus (Except.ok [Deployment.mk "d" "default" none 0 0 0])
        (Except.ok []) (Except.ok 0) "default" now
      = HandlerOutcome.panicked nilDerefMsg
    ∧ (showDeploymentStatus (Except.ok [Deployment.mk "d" "default" none 0 0 0]) evs).2
      = true := by
  refine ⟨?_, ?_, ?_, rfl, rfl, rfl⟩
  · obtain ⟨s, hs⟩ := buildStatuses_ok items GoSlice.nilSlice h
    simp only [handleGetDeployments, hs]
    exact ⟨_, _, rfl⟩
  · cases pods with
    | error ep => exact ⟨_, _, rfl⟩
    | ok ps =>
      cases svcs with
      | error es => exact ⟨_, _, rfl⟩
      | ok sc =>
        obtain ⟨hc, hhc⟩ := countHealth_ok items (0, 0) h
        simp only [handleGetStatus, hhc]
        exact ⟨_, _, rfl⟩
  · have hl := deploymentStatusLoop_no_panic items
      [(Level.info, "Fetching deployment status"),
       (Level.info, "Deployment status retrieved")] h
    simp only [showDeploymentStatus]
    rw [show deploymentStatusLoop items
        [(Level.info, "Fetching deployment status"),
         (Level.info, "Deployment status retrieved")]
      = ((deploymentStatusLoop items
          [(Level.info, "Fetching deployment status"),
           (Level.info, "Deployment status retrieved")]).1, false) from by
        rw [← hl]]

theorem C10_nil_replicas_deref_witness :
    ∃ status body,
      handleGetDeployments (Except.ok [Deployment.mk "web" "default" (some 3) 3 3 3])
        "default" = HandlerOutcome.resp status body := by
  exact (C10_nil_replicas_deref [Deployment.mk "web" "default" (some 3) 3 3 3]
    "default" "t" (Except.ok []) (Except.ok 0) (Except.ok []) (by simp)).1
